import Mathlib

/-!
Shallow embedding of the lockit-signup module (src/index.js): the signup,
resend-verification and token-verification request handlers, together with
the models of the external collaborators (account adapter, mailer, event
emitter) that the handlers call.  Timestamps are milliseconds as `Nat`;
the random `uuid.v4()` draws are threaded in as explicit arguments.
-/

namespace LockitSignup

/-! ## ASCII character classes -/

/-- Test for an ASCII uppercase letter. -/
def isAsciiUpper (c : Char) : Bool := 65 ≤ c.toNat && c.toNat ≤ 90

/-- Test for an ASCII lowercase letter. -/
def isAsciiLower (c : Char) : Bool := 97 ≤ c.toNat && c.toNat ≤ 122

/-- Test for an ASCII digit. -/
def isAsciiDigit (c : Char) : Bool := 48 ≤ c.toNat && c.toNat ≤ 57

/-- Test for an ASCII letter. -/
def isAsciiLetter (c : Char) : Bool := isAsciiUpper c || isAsciiLower c

/-! ## encodeURIComponent (used by the `name !== encodeURIComponent(name)` check) -/

/-- Characters that JavaScript `encodeURIComponent` leaves unescaped. -/
def isUnescapedURIChar (c : Char) : Bool :=
  isAsciiLetter c || isAsciiDigit c ||
  c = Char.ofNat 45 || c = Char.ofNat 95 || c = Char.ofNat 46 || c = Char.ofNat 33 ||
  c = Char.ofNat 126 || c = Char.ofNat 42 || c = Char.ofNat 39 || c = Char.ofNat 40 ||
  c = Char.ofNat 41

/-- Uppercase hexadecimal digit for a value below 16. -/
def hexDigitUpper (n : Nat) : Char :=
  if n < 10 then Char.ofNat (48 + n) else Char.ofNat (55 + n)

/-- Percent-encoding of one byte, as `%HH`. -/
def percentByte (b : Nat) : List Char :=
  [Char.ofNat 37, hexDigitUpper (b / 16), hexDigitUpper (b % 16)]

/-- UTF-8 bytes of a scalar value. -/
def utf8Bytes (c : Char) : List Nat :=
  let n := c.toNat
  if n < 128 then [n]
  else if n < 2048 then [192 + n / 64, 128 + n % 64]
  else if n < 65536 then [224 + n / 4096, 128 + (n / 64) % 64, 128 + n % 64]
  else [240 + n / 262144, 128 + (n / 4096) % 64, 128 + (n / 64) % 64, 128 + n % 64]

/-- Encoding of one character under `encodeURIComponent`. -/
def encodeURIChar (c : Char) : List Char :=
  if isUnescapedURIChar c then [c] else ((utf8Bytes c).map percentByte).flatten

/-- JavaScript `encodeURIComponent`. -/
def encodeURIComponent (s : String) : String :=
  ⟨(s.data.map encodeURIChar).flatten⟩

/-- JavaScript `String.prototype.toLowerCase` (ASCII range). -/
def jsToLower (s : String) : String := ⟨s.data.map Char.toLower⟩

/-- JavaScript `name.charAt(0).match(/[a-z]/)` as a Boolean. -/
def firstCharLowerAlpha (s : String) : Bool :=
  match s.data with
  | [] => false
  | c :: _ => isAsciiLower c

/-! ## The email regular expression

`/^[A-Za-z0-9._%+-]+@[A-Za-z0-9.-]+\.[A-Za-z]{2,6}$/` from src/index.js,
modelled by existential decomposition over all split points, which is
exactly the anchored-regex matching semantics for this pattern. -/

/-- Characters allowed in the local part of the email pattern. -/
def isLocalChar (c : Char) : Bool :=
  isAsciiLetter c || isAsciiDigit c ||
  c = Char.ofNat 46 || c = Char.ofNat 95 || c = Char.ofNat 37 ||
  c = Char.ofNat 43 || c = Char.ofNat 45

/-- Characters allowed in the domain part of the email pattern. -/
def isDomainChar (c : Char) : Bool :=
  isAsciiLetter c || isAsciiDigit c || c = Char.ofNat 46 || c = Char.ofNat 45

/-- All decompositions of a list as prefix-suffix pairs, given a reversed accumulator. -/
def splitsFrom : List Char → List Char → List (List Char × List Char)
  | acc, [] => [(acc.reverse, [])]
  | acc, c :: rest => (acc.reverse, c :: rest) :: splitsFrom (c :: acc) rest

/-- All decompositions of a list as prefix-suffix pairs. -/
def splits (cs : List Char) : List (List Char × List Char) := splitsFrom [] cs

/-- Match of `[A-Za-z0-9.-]+\.[A-Za-z]{2,6}` against a whole character list. -/
def domainTailOk (cs : List Char) : Bool :=
  (splits cs).any fun pr =>
    match pr.2 with
    | c :: tld =>
        c = Char.ofNat 46 && decide (pr.1 ≠ []) && pr.1.all isDomainChar &&
        decide (2 ≤ tld.length) && decide (tld.length ≤ 6) && tld.all isAsciiLetter
    | [] => false

/-- Match of the full email regular expression against a string. -/
def emailTest (s : String) : Bool :=
  (splits s.data).any fun pr =>
    match pr.2 with
    | c :: rest => c = Char.ofNat 64 && decide (pr.1 ≠ []) && pr.1.all isLocalChar && domainTailOk rest
    | [] => false

/-! ## The token regular expression

`new RegExp('[0-9a-f]{22}|[0-9a-f]{8}-[0-9a-f]{4}-[0-9a-f]{4}-[0-9a-f]{4}-[0-9a-f]{12}', 'i')`
and `re.test(token)`: the pattern is unanchored, so `test` succeeds exactly
when some position of the string starts a match of one alternative. -/

/-- Case-insensitive hexadecimal digit (the regex carries the `i` flag). -/
def hexChar (c : Char) : Bool :=
  isAsciiDigit c || (97 ≤ c.toNat && c.toNat ≤ 102) || (65 ≤ c.toNat && c.toNat ≤ 70)

/-- Consume exactly `n` hexadecimal characters, returning the remainder. -/
def takeHex : Nat → List Char → Option (List Char)
  | 0, cs => some cs
  | _ + 1, [] => none
  | n + 1, c :: cs => if hexChar c then takeHex n cs else none

/-- Consume a dash and then `n` hexadecimal characters. -/
def dashThen (r : Option (List Char)) (n : Nat) : Option (List Char) :=
  match r with
  | some (c :: rest) => if c = Char.ofNat 45 then takeHex n rest else none
  | _ => none

/-- Match of alternative `[0-9a-f]{22}` starting at the head of the list. -/
def matchPlainAt (cs : List Char) : Bool := (takeHex 22 cs).isSome

/-- Match of the dashed `8-4-4-4-12` alternative starting at the head of the list. -/
def matchDashedAt (cs : List Char) : Bool :=
  (dashThen (dashThen (dashThen (dashThen (takeHex 8 cs) 4) 4) 4) 12).isSome

/-- Match of either alternative starting at the head of the list. -/
def tokenShapeAt (cs : List Char) : Bool := matchPlainAt cs || matchDashedAt cs

/-- Unanchored search: does any suffix start a match of either alternative? -/
def reTestList : List Char → Bool
  | [] => tokenShapeAt []
  | c :: cs => tokenShapeAt (c :: cs) || reTestList cs

/-- The `re.test(token)` call of `getSignupToken`. -/
def reTest (s : String) : Bool := reTestList s.data

/-- Written from the spec's words, for comparison with `reTest`: the ENTIRE
string is a 22-character hexadecimal token or a dashed 8-4-4-4-12 token. -/
def specExactTokenShape (s : String) : Bool :=
  decide (takeHex 22 s.data = some ([] : List Char)) ||
  decide (dashThen (dashThen (dashThen (dashThen (takeHex 8 s.data) 4) 4) 4) 12
            = some ([] : List Char))

/-! ## Data model -/

/-- Account record, as stored by the adapter.  Optional fields model the
JavaScript pattern of deleting a property to mark absence. -/
structure Account where
  name : String
  email : String
  password : String
  accountType : String
  emailVerified : Bool
  emailVerificationTimestamp : Option Nat
  signupToken : Option String
  signupTokenExpires : Option Nat
deriving DecidableEq, Repr

/-- Configuration values the three handlers consult: `config.rest`,
`config.signup.handleResponse`, `ms(config.signup.tokenExpiration)` in
milliseconds, and the five optional custom views. -/
structure Config where
  rest : Bool
  handleResponse : Bool
  tokenExpiration : Nat
  viewsSignup : Option String
  viewsSignedUp : Option String
  viewsResend : Option String
  viewsLinkExpired : Option String
  viewsVerified : Option String
deriving DecidableEq, Repr

/-- Outward response of a handler.  `next` is the fall-through to the next
middleware (the not-applicable outcome); `crash` marks a thrown TypeError
(a property read on `undefined`). -/
inductive Response where
  | json (status : Nat) (errorCode : String)
  | send (status : Nat)
  | render (status : Option Nat) (view : String) (title : String)
      (errorCode : Option String) (name : Option String) (email : Option String)
  | next
  | crash
deriving DecidableEq, Repr

/-- Observable calls a handler makes to the adapter, the mailer and the
event emitter, in order. -/
inductive Effect where
  | find (field : String) (value : String)
  | save (name email password accountType : String)
  | update (a : Account)
  | mailTaken (name email : String)
  | mailSignup (name email token : String)
  | mailResend (name email token : String)
  | emitSignupPost (a : Account)
  | emitSignup (a : Account)
deriving DecidableEq, Repr

/-- Result of one handler invocation: the database afterwards, the effect
trace, and the response (none when the handler sends nothing). -/
structure Result where
  db : List Account
  effects : List Effect
  response : Option Response
deriving DecidableEq, Repr

/-! ## Adapter model (external collaborator, modelled from the spec) -/

/-- Modelled from the spec: the Account Repository's `findBy` field access.
The adapter is not part of src/; the spec's Repository Contract offers
lookup by `name`, `email` and `signupToken`. -/
def acctField (field : String) (a : Account) : Option String :=
  if field = "name" then some a.name
  else if field = "email" then some a.email
  else if field = "signupToken" then a.signupToken
  else none

/-- Modelled from the spec: `adapter.find(field, value)` returns the first
stored Account whose field equals the value, or absent. -/
def dbFind (db : List Account) (field value : String) : Option Account :=
  db.find? fun a => acctField field a = some value

/-- Modelled from the spec: `adapter.update(user)` persists the mutated
record in place, keyed by the unique `name`. -/
def dbUpdate (db : List Account) (u : Account) : List Account :=
  db.map fun b => if b.name = u.name then u else b

/-! ## Views with built-in defaults -/

/-- View for the signup form, `config.signup.views.signup` or the built-in. -/
def signupView (cfg : Config) : String := cfg.viewsSignup.getD "get-signup"

/-- View after signup, `config.signup.views.signedUp` or the built-in. -/
def signedUpView (cfg : Config) : String := cfg.viewsSignedUp.getD "post-signup"

/-- View for the resend form, `config.signup.views.resend` or the built-in. -/
def resendView (cfg : Config) : String := cfg.viewsResend.getD "resend-verification"

/-- View for an expired link, `config.signup.views.linkExpired` or the built-in. -/
def linkExpiredView (cfg : Config) : String := cfg.viewsLinkExpired.getD "link-expired"

/-- View after verification, `config.signup.views.verified` or the built-in. -/
def verifiedView (cfg : Config) : String := cfg.viewsVerified.getD "mail-verification-success"

/-! ## Validator -/

/-- The ordered validation chain of `postSignup` (src/index.js lines 96-108),
returning the first failing check's error code. -/
def validateSignup (name email password accountType : String) : Option String :=
  if name = "" ∨ email = "" ∨ password = "" then some "signup.01"
  else if name ≠ encodeURIComponent name then some "signup.02"
  else if name ≠ jsToLower name then some "signup.03"
  else if firstCharLowerAlpha name = false then some "signup.04"
  else if emailTest email = false then some "signup.05"
  else if accountType = "" then some "signup.06"
  else none

/-- Written from the spec's words, for comparison with `validateSignup`:
the ordered check list of section 4.1, each with its stable code. -/
def specSignupChecks (name email password accountType : String) : List (Bool × String) :=
  [(decide (name = "" ∨ email = "" ∨ password = ""), "signup.01"),
   (decide (name ≠ encodeURIComponent name), "signup.02"),
   (decide (name ≠ jsToLower name), "signup.03"),
   (!firstCharLowerAlpha name, "signup.04"),
   (!emailTest email, "signup.05"),
   (decide (accountType = ""), "signup.06")]

/-- Written from the spec's words: first failing check wins, success yields
no error. -/
def specFirstFailure (name email password accountType : String) : Option String :=
  ((specSignupChecks name email password accountType).find? fun c => c.1).map fun c => c.2

/-! ## The comparison `new Date(user.signupTokenExpires) < new Date()`

`new Date(undefined)` is an Invalid Date and every comparison on it is
false, so an absent expiry never counts as expired. -/

/-- The expiry comparison of `getSignupToken` (src/index.js line 364). -/
def dateLt (e : Option Nat) (now : Nat) : Bool :=
  match e with
  | some t => decide (t < now)
  | none => false

/-! ## The three handlers -/

/-- `Signup.prototype.postSignup` (src/index.js lines 81-203).  The fresh
token and expiry that `adapter.save` assigns to the created Account are
modelled from the spec's Repository Contract (save assigns the initial
token and expiry); the token value is the explicit `freshToken` argument. -/
def postSignup (cfg : Config) (db : List Account)
    (name email password accountType : String) (freshToken : String) (now : Nat) : Result :=
  match validateSignup name email password accountType with
  | some code =>
      if cfg.rest then ⟨db, [], some (Response.json 403 code)⟩
      else ⟨db, [], some (Response.render (some 403) (signupView cfg) "Sign up"
              (some code) (some name) (some email))⟩
  | none =>
      match dbFind db "name" name with
      | some _ =>
          if cfg.rest then
            ⟨db, [Effect.find "name" name], some (Response.json 403 "signup.07")⟩
          else
            ⟨db, [Effect.find "name" name],
             some (Response.render (some 403) (signupView cfg) "Sign up"
                     (some "signup.07") (some name) (some email))⟩
      | none =>
          match dbFind db "email" email with
          | some user =>
              ⟨db,
               [Effect.find "name" name, Effect.find "email" email,
                Effect.mailTaken user.name user.email],
               some (if cfg.rest then Response.send 204
                     else Response.render none (signedUpView cfg) "Sign up - Email sent"
                            none none none)⟩
          | none =>
              let u : Account :=
                ⟨name, email, password, accountType, false, none,
                 some freshToken, some (now + cfg.tokenExpiration)⟩
              ⟨db ++ [u],
               [Effect.find "name" name, Effect.find "email" email,
                Effect.save name email password accountType,
                Effect.mailSignup u.name u.email freshToken,
                Effect.emitSignupPost u],
               some (if cfg.rest then Response.send 204
                     else Response.render none (signedUpView cfg) "Sign up - Email sent"
                            none none none)⟩

/-- `Signup.prototype.postSignupResend` (src/index.js lines 236-329).  The
`if (!user)` and `if (user.emailVerified)` branches return only when
`config.rest` is true; otherwise control falls through, and in the absent
case the following `user.emailVerified` read throws (modelled `crash`). -/
def postSignupResend (cfg : Config) (db : List Account)
    (email : String) (freshToken : String) (now : Nat) : Result :=
  if email = "" ∨ emailTest email = false then
    if cfg.rest then ⟨db, [], some (Response.json 403 "signup.08")⟩
    else ⟨db, [], some (Response.render (some 403) (resendView cfg)
            "Resend verification email" (some "signup.08") none none)⟩
  else
    match dbFind db "email" email with
    | none =>
        if cfg.rest then
          ⟨db, [Effect.find "email" email], some (Response.json 403 "signup.10")⟩
        else
          ⟨db, [Effect.find "email" email], some Response.crash⟩
    | some user =>
        if user.emailVerified && cfg.rest then
          ⟨db, [Effect.find "email" email], some (Response.json 403 "signup.11")⟩
        else
          let u : Account :=
            { user with signupToken := some freshToken,
                        signupTokenExpires := some (now + cfg.tokenExpiration) }
          ⟨dbUpdate db u,
           [Effect.find "email" email, Effect.update u,
            Effect.mailResend u.name email freshToken],
           some (if cfg.rest then Response.send 204
                 else Response.render none (signedUpView cfg) "Sign up - Email sent"
                        none none none)⟩

/-- Response of the valid-token branch of `getSignupToken`: when
`config.signup.handleResponse` is false nothing is sent at all. -/
def verifiedResponse (cfg : Config) : Option Response :=
  if cfg.handleResponse then
    some (if cfg.rest then Response.send 204
          else Response.render none (verifiedView cfg) "Sign up success" none none none)
  else none

/-- `Signup.prototype.getSignupToken` (src/index.js lines 343-426).  Note
that the expired branch deletes only `signupToken` (line 367) and leaves
`signupTokenExpires` on the record. -/
def getSignupToken (cfg : Config) (db : List Account)
    (token : String) (now : Nat) : Result :=
  if reTest token = false then ⟨db, [], some Response.next⟩
  else
    match dbFind db "signupToken" token with
    | none => ⟨db, [Effect.find "signupToken" token], some Response.next⟩
    | some user =>
        if dateLt user.signupTokenExpires now then
          let u : Account := { user with signupToken := none }
          ⟨dbUpdate db u,
           [Effect.find "signupToken" token, Effect.update u],
           some (if cfg.rest then Response.json 403 "signup.09"
                 else Response.render none (linkExpiredView cfg)
                        "Sign up - Email verification link expired" none none none)⟩
        else
          let u : Account :=
            { user with emailVerificationTimestamp := some now, emailVerified := true,
                        signupToken := none, signupTokenExpires := none }
          ⟨dbUpdate db u,
           [Effect.find "signupToken" token, Effect.update u, Effect.emitSignup u],
           verifiedResponse cfg⟩

/-- Record written by the valid branch of `getSignupToken`: verification
values set, token and expiry removed. -/
def verifiedAccount (a : Account) (now : Nat) : Account :=
  { a with emailVerificationTimestamp := some now, emailVerified := true,
           signupToken := none, signupTokenExpires := none }

/-- Record written by `postSignupResend` when it issues a token: the fresh
token and its expiry stored on the account. -/
def resentAccount (a : Account) (t : String) (e : Nat) : Account :=
  { a with signupToken := some t, signupTokenExpires := some e }

/-- Account record created through `adapter.save` for a fresh signup, with
the initial token and expiry the adapter assigns (modelled from the spec's
Repository Contract). -/
def newAccount (name email password accountType tok : String) (expiry : Nat) : Account :=
  ⟨name, email, password, accountType, false, none, some tok, some expiry⟩

/-! ## Concrete fixtures used when instantiating theorems -/

/-- Configuration with REST off, response handling on, one-second token
lifetime and built-in views. -/
def cfgNonRest : Config := ⟨false, true, 1000, none, none, none, none, none⟩

/-- Configuration with REST on, response handling on, one-second token
lifetime and built-in views. -/
def cfgRest : Config := ⟨true, true, 1000, none, none, none, none, none⟩

/-- A 22-character hexadecimal token. -/
def tok22 : String := "0123456789abcdef012345"

/-- A second, different 22-character hexadecimal token. -/
def tok22b : String := "0123456789abcdef012399"

/-- A stored account for user bob with the given token state. -/
def acctBob (tok : Option String) (exp : Option Nat) : Account :=
  ⟨"bob", "bob@example.com", "x", "user", false, none, tok, exp⟩

/-! ## Helper lemmas about the adapter model -/

/-- Field access for `name` unfolds to the name field. -/
theorem acctField_name (a : Account) : acctField "name" a = some a.name := rfl

/-- Field access for `email` unfolds to the email field. -/
theorem acctField_email (a : Account) : acctField "email" a = some a.email := rfl

/-- Field access for `signupToken` unfolds to the token field. -/
theorem acctField_token (a : Account) : acctField "signupToken" a = a.signupToken := rfl

/-- An account found by email has that email. -/
theorem dbFind_email_eq {db : List Account} {e : String} {a : Account}
    (h : dbFind db "email" e = some a) : a.email = e := by
  have hp := List.find?_some h
  rw [acctField_email] at hp
  exact Option.some_injective _ (of_decide_eq_true hp)

/-- An account found by email is a member of the database. -/
theorem dbFind_email_mem {db : List Account} {e : String} {a : Account}
    (h : dbFind db "email" e = some a) : a ∈ db :=
  List.mem_of_find?_eq_some h

/-- An account found by token holds that token. -/
theorem dbFind_token_eq {db : List Account} {t : String} {a : Account}
    (h : dbFind db "signupToken" t = some a) : a.signupToken = some t := by
  have hp := List.find?_some h
  rw [acctField_token] at hp
  exact of_decide_eq_true hp

/-- After an update whose record does not carry token `t`, a token lookup
for `t` finds nothing, provided every original holder of `t` shares the
updated record's name (and so was overwritten). -/
theorem dbFind_update_token_none {db : List Account} {u : Account} {t : String}
    (hu : u.signupToken ≠ some t)
    (h : ∀ b ∈ db, b.signupToken = some t → b.name = u.name) :
    dbFind (dbUpdate db u) "signupToken" t = none := by
  unfold dbFind dbUpdate
  rw [List.find?_eq_none]
  intro x hx
  rcases List.mem_map.mp hx with ⟨b, hb, rfl⟩
  by_cases hbn : b.name = u.name
  · simp only [hbn, if_true, acctField_token, decide_eq_true_eq]
    exact hu
  · simp only [hbn, if_false, acctField_token, decide_eq_true_eq]
    intro hcon
    exact hbn (h b hb hcon)

/-- After an update, an email lookup returns the updated record, provided
some stored account carries the updated name and no account of another
name carries the email. -/
theorem dbFind_update_email_self {db : List Account} {u : Account} {e : String}
    (hmem : ∃ b ∈ db, b.name = u.name)
    (hother : ∀ b ∈ db, b.name ≠ u.name → b.email ≠ e)
    (hu : u.email = e) :
    dbFind (dbUpdate db u) "email" e = some u := by
  induction db with
  | nil => rcases hmem with ⟨b, hb, _⟩; exact absurd hb (List.not_mem_nil b)
  | cons c cs ih =>
      unfold dbFind dbUpdate
      simp only [List.map_cons]
      by_cases hc : c.name = u.name
      · rw [List.find?_cons_of_pos]
        simp only [hc, if_true]
        simp only [hc, if_true, acctField_email, hu, decide_eq_true_eq]
      · rw [if_neg hc, List.find?_cons_of_neg, ← dbUpdate, ← dbFind]
        · refine ih ?_ ?_
          · rcases hmem with ⟨b, hb, hbn⟩
            rcases List.mem_cons.mp hb with rfl | hb2
            · exact absurd hbn hc
            · exact ⟨b, hb2, hbn⟩
          · intro b hb; exact hother b (List.mem_cons_of_mem c hb)
        · simp only [acctField_email, decide_eq_true_eq, Option.some.injEq]
          exact hother c (List.mem_cons_self c cs) hc

/-- After an update, a token lookup for the updated record's token returns
it, provided some stored account carries the updated name and no account
of another name carries that token. -/
theorem dbFind_update_token_self {db : List Account} {u : Account} {t : String}
    (hmem : ∃ b ∈ db, b.name = u.name)
    (hother : ∀ b ∈ db, b.name ≠ u.name → b.signupToken ≠ some t)
    (hu : u.signupToken = some t) :
    dbFind (dbUpdate db u) "signupToken" t = some u := by
  induction db with
  | nil => rcases hmem with ⟨b, hb, _⟩; exact absurd hb (List.not_mem_nil b)
  | cons c cs ih =>
      unfold dbFind dbUpdate
      simp only [List.map_cons]
      by_cases hc : c.name = u.name
      · rw [List.find?_cons_of_pos]
        simp only [hc, if_true]
        simp only [hc, if_true, acctField_token, hu, decide_eq_true_eq]
      · rw [if_neg hc, List.find?_cons_of_neg, ← dbUpdate, ← dbFind]
        · refine ih ?_ ?_
          · rcases hmem with ⟨b, hb, hbn⟩
            rcases List.mem_cons.mp hb with rfl | hb2
            · exact absurd hbn hc
            · exact ⟨b, hb2, hbn⟩
          · intro b hb; exact hother b (List.mem_cons_of_mem c hb)
        · simp only [acctField_token, decide_eq_true_eq]
          exact hother c (List.mem_cons_self c cs) hc

/-! ## Branch evaluation lemmas for the three handlers -/

/-- With a well-shaped token, a successful lookup and an unexpired expiry,
`getSignupToken` takes the valid branch. -/
theorem getSignupToken_valid_eval
    (cfg : Config) (db : List Account) (a : Account) (token : String) (now : Nat)
    (hre : reTest token = true)
    (hfind : dbFind db "signupToken" token = some a)
    (hnexp : dateLt a.signupTokenExpires now = false) :
    getSignupToken cfg db token now =
      ⟨dbUpdate db (verifiedAccount a now),
       [Effect.find "signupToken" token, Effect.update (verifiedAccount a now),
        Effect.emitSignup (verifiedAccount a now)],
       verifiedResponse cfg⟩ := by
  have hcond : ¬ (reTest token = false) := by simp [hre]
  unfold getSignupToken
  rw [if_neg hcond]
  simp only [hfind]
  rw [hnexp, if_neg (by simp)]
  rfl

/-- With a well-shaped token, a successful lookup and an expired expiry,
`getSignupToken` takes the expired branch. -/
theorem getSignupToken_expired_eval
    (cfg : Config) (db : List Account) (a : Account) (token : String) (now : Nat)
    (hre : reTest token = true)
    (hfind : dbFind db "signupToken" token = some a)
    (hexp : dateLt a.signupTokenExpires now = true) :
    getSignupToken cfg db token now =
      ⟨dbUpdate db { a with signupToken := none },
       [Effect.find "signupToken" token, Effect.update { a with signupToken := none }],
       some (if cfg.rest then Response.json 403 "signup.09"
             else Response.render none (linkExpiredView cfg)
                    "Sign up - Email verification link expired" none none none)⟩ := by
  have hcond : ¬ (reTest token = false) := by simp [hre]
  unfold getSignupToken
  rw [if_neg hcond]
  simp only [hfind]
  rw [hexp, if_pos rfl]

/-- With a well-shaped token and a failed lookup, `getSignupToken` falls
through to the next middleware. -/
theorem getSignupToken_notfound_eval
    (cfg : Config) (db : List Account) (token : String) (now : Nat)
    (hre : reTest token = true)
    (hnone : dbFind db "signupToken" token = none) :
    getSignupToken cfg db token now =
      ⟨db, [Effect.find "signupToken" token], some Response.next⟩ := by
  have hcond : ¬ (reTest token = false) := by simp [hre]
  unfold getSignupToken
  rw [if_neg hcond]
  simp only [hnone]

/-- With a validation error, `postSignup` responds at once and touches
nothing. -/
theorem postSignup_error_eval
    (cfg : Config) (db : List Account) (n e p t tok : String) (now : Nat) (code : String)
    (hval : validateSignup n e p t = some code) :
    postSignup cfg db n e p t tok now =
      ⟨db, [],
       some (if cfg.rest then Response.json 403 code
             else Response.render (some 403) (signupView cfg) "Sign up"
                    (some code) (some n) (some e))⟩ := by
  unfold postSignup
  simp only [hval]
  cases cfg.rest <;> simp

/-- With valid input, an unused name and an already-registered email,
`postSignup` takes the duplicate-email branch. -/
theorem postSignup_dup_email_eval
    (cfg : Config) (db : List Account) (u : Account) (n e p t tok : String) (now : Nat)
    (hval : validateSignup n e p t = none)
    (hname : dbFind db "name" n = none)
    (hdup : dbFind db "email" e = some u) :
    postSignup cfg db n e p t tok now =
      ⟨db,
       [Effect.find "name" n, Effect.find "email" e, Effect.mailTaken u.name u.email],
       some (if cfg.rest then Response.send 204
             else Response.render none (signedUpView cfg) "Sign up - Email sent"
                    none none none)⟩ := by
  unfold postSignup
  simp only [hval, hname, hdup]

/-- With valid input and both lookups empty, `postSignup` creates the
account. -/
theorem postSignup_fresh_eval
    (cfg : Config) (db : List Account) (n e p t tok : String) (now : Nat)
    (hval : validateSignup n e p t = none)
    (hname : dbFind db "name" n = none)
    (hfresh : dbFind db "email" e = none) :
    postSignup cfg db n e p t tok now =
      ⟨db ++ [newAccount n e p t tok (now + cfg.tokenExpiration)],
       [Effect.find "name" n, Effect.find "email" e, Effect.save n e p t,
        Effect.mailSignup n e tok, Effect.emitSignupPost
          (newAccount n e p t tok (now + cfg.tokenExpiration))],
       some (if cfg.rest then Response.send 204
             else Response.render none (signedUpView cfg) "Sign up - Email sent"
                    none none none)⟩ := by
  unfold postSignup
  simp only [hval, hname, hfresh]
  rfl

/-- With a valid email, a successful lookup and no early return (the
account is unverified, or REST is off), `postSignupResend` issues and
stores a fresh token. -/
theorem postSignupResend_issue_eval
    (cfg : Config) (db : List Account) (a : Account) (email tok : String) (now : Nat)
    (hmail : emailTest email = true)
    (hfind : dbFind db "email" email = some a)
    (hnoblock : (a.emailVerified && cfg.rest) = false) :
    postSignupResend cfg db email tok now =
      ⟨dbUpdate db (resentAccount a tok (now + cfg.tokenExpiration)),
       [Effect.find "email" email,
        Effect.update (resentAccount a tok (now + cfg.tokenExpiration)),
        Effect.mailResend a.name email tok],
       some (if cfg.rest then Response.send 204
             else Response.render none (signedUpView cfg) "Sign up - Email sent"
                    none none none)⟩ := by
  have hne : email ≠ "" := by
    intro h
    rw [h] at hmail
    exact absurd hmail (by decide)
  have hcond : ¬ (email = "" ∨ emailTest email = false) := by
    rintro (h | h)
    · exact hne h
    · rw [hmail] at h; cases h
  unfold postSignupResend
  rw [if_neg hcond]
  simp only [hfind]
  rw [hnoblock, if_neg (by simp)]
  rfl

/-! ## Claim C1 -/

/-- C1 (counterexample): on an account whose token has expired, the
Verification workflow persists a record that still carries
`signupTokenExpires` while `signupToken` is gone, so the claimed
"clears both fields, and the present-iff-present invariant holds
afterwards" is false at this input. -/
theorem expired_branch_counterexample :
    (getSignupToken cfgNonRest [acctBob (some tok22) (some 500)] tok22 1000).db =
      [⟨"bob", "bob@example.com", "x", "user", false, none, none, some 500⟩] ∧
    (getSignupToken cfgNonRest [acctBob (some tok22) (some 500)] tok22 1000).response =
      some (Response.render none "link-expired"
             "Sign up - Email verification link expired" none none none) := by
  constructor <;> rfl

/-- C1 (amended): for every account whose `signupTokenExpires` is in the
past, the Verification workflow on that account's token clears only
`signupToken`, leaves `signupTokenExpires` on the persisted record, and
returns the expired outcome; the iff invariant therefore does not hold
after this operation. -/
theorem expired_branch_clears_token_only
    (cfg : Config) (db : List Account) (a : Account) (token : String) (now exp : Nat)
    (hre : reTest token = true)
    (hfind : dbFind db "signupToken" token = some a)
    (hexp : a.signupTokenExpires = some exp)
    (hpast : exp < now) :
    getSignupToken cfg db token now =
      ⟨dbUpdate db { a with signupToken := none },
       [Effect.find "signupToken" token, Effect.update { a with signupToken := none }],
       some (if cfg.rest then Response.json 403 "signup.09"
             else Response.render none (linkExpiredView cfg)
                    "Sign up - Email verification link expired" none none none)⟩ ∧
    ({ a with signupToken := none } : Account).signupToken = none ∧
    ({ a with signupToken := none } : Account).signupTokenExpires = some exp := by
  refine ⟨?_, rfl, hexp⟩
  exact getSignupToken_expired_eval cfg db a token now hre hfind
    (by rw [hexp]; simp [dateLt, hpast])

/-- Witness for C1 (amended) at a concrete expired account. -/
theorem expired_branch_clears_token_only_witness :
    getSignupToken cfgNonRest [acctBob (some tok22) (some 500)] tok22 1000 =
      ⟨[⟨"bob", "bob@example.com", "x", "user", false, none, none, some 500⟩],
       [Effect.find "signupToken" tok22,
        Effect.update ⟨"bob", "bob@example.com", "x", "user", false, none, none, some 500⟩],
       some (Response.render none "link-expired"
              "Sign up - Email verification link expired" none none none)⟩ ∧
    (⟨"bob", "bob@example.com", "x", "user", false, none, none, some 500⟩ : Account).signupToken
      = none ∧
    (⟨"bob", "bob@example.com", "x", "user", false, none, none,
       some 500⟩ : Account).signupTokenExpires = some 500 :=
  expired_branch_clears_token_only cfgNonRest [acctBob (some tok22) (some 500)]
    (acctBob (some tok22) (some 500)) tok22 1000 500
    (by decide) (by decide) rfl (by decide)

/-! ## Claim C3 -/

/-- C3 (counterexample): when the current time exactly equals
`signupTokenExpires`, the verified branch runs (the record becomes
verified and the success view is rendered), so the claimed
"boundary instant counts as expired" is false at this input. -/
theorem boundary_expiry_counterexample :
    (getSignupToken cfgNonRest [acctBob (some tok22) (some 1000)] tok22 1000).db =
      [⟨"bob", "bob@example.com", "x", "user", true, some 1000, none, none⟩] ∧
    (getSignupToken cfgNonRest [acctBob (some tok22) (some 1000)] tok22 1000).response =
      some (Response.render none "mail-verification-success" "Sign up success"
             none none none) := by
  constructor <;> rfl

/-- C3 (amended): the expiry comparison is strict on the valid side: when
the current time exactly equals `signupTokenExpires` the token is treated
as still valid and the verified branch runs; the expired branch runs only
when the expiry is strictly before now. -/
theorem boundary_expiry_treated_valid
    (cfg : Config) (db : List Account) (a : Account) (token : String) (now : Nat)
    (hre : reTest token = true)
    (hfind : dbFind db "signupToken" token = some a)
    (hexp : a.signupTokenExpires = some now) :
    getSignupToken cfg db token now =
      ⟨dbUpdate db (verifiedAccount a now),
       [Effect.find "signupToken" token, Effect.update (verifiedAccount a now),
        Effect.emitSignup (verifiedAccount a now)],
       verifiedResponse cfg⟩ ∧
    (∀ e n : Nat, dateLt (some e) n = true ↔ e < n) := by
  refine ⟨?_, fun e n => by simp [dateLt]⟩
  exact getSignupToken_valid_eval cfg db a token now hre hfind
    (by rw [hexp]; simp [dateLt])

/-- Witness for C3 (amended) at a concrete boundary instant. -/
theorem boundary_expiry_treated_valid_witness :
    getSignupToken cfgNonRest [acctBob (some tok22) (some 1000)] tok22 1000 =
      ⟨[⟨"bob", "bob@example.com", "x", "user", true, some 1000, none, none⟩],
       [Effect.find "signupToken" tok22,
        Effect.update ⟨"bob", "bob@example.com", "x", "user", true, some 1000, none, none⟩,
        Effect.emitSignup ⟨"bob", "bob@example.com", "x", "user", true, some 1000, none, none⟩],
       some (Response.render none "mail-verification-success" "Sign up success"
              none none none)⟩ ∧
    (∀ e n : Nat, dateLt (some e) n = true ↔ e < n) :=
  boundary_expiry_treated_valid cfgNonRest [acctBob (some tok22) (some 1000)]
    (acctBob (some tok22) (some 1000)) tok22 1000
    (by decide) (by decide) rfl

/-! ## Claim C7 -/

/-- C7: for every account whose `signupTokenExpires` is in the future,
Verification with its token takes the verified branch: it sets
`emailVerified` and the timestamp, clears both token fields, persists, and
a second Verification call with the same token afterwards falls through
with the not-applicable outcome, the consumed token matching no account. -/
theorem verify_then_reuse_not_applicable
    (cfg cfg2 : Config) (db : List Account) (a : Account) (token : String)
    (now now2 exp : Nat)
    (hre : reTest token = true)
    (hfind : dbFind db "signupToken" token = some a)
    (hexp : a.signupTokenExpires = some exp)
    (hfut : now < exp)
    (htok : ∀ b ∈ db, b.signupToken = some token → b.name = a.name) :
    getSignupToken cfg db token now =
      ⟨dbUpdate db (verifiedAccount a now),
       [Effect.find "signupToken" token, Effect.update (verifiedAccount a now),
        Effect.emitSignup (verifiedAccount a now)],
       verifiedResponse cfg⟩ ∧
    (verifiedAccount a now).emailVerified = true ∧
    (verifiedAccount a now).emailVerificationTimestamp = some now ∧
    (verifiedAccount a now).signupToken = none ∧
    (verifiedAccount a now).signupTokenExpires = none ∧
    dbFind (dbUpdate db (verifiedAccount a now)) "signupToken" token = none ∧
    getSignupToken cfg2 (dbUpdate db (verifiedAccount a now)) token now2 =
      ⟨dbUpdate db (verifiedAccount a now),
       [Effect.find "signupToken" token], some Response.next⟩ := by
  have hnone : dbFind (dbUpdate db (verifiedAccount a now)) "signupToken" token = none := by
    apply dbFind_update_token_none
    · simp [verifiedAccount]
    · exact htok
  refine ⟨?_, rfl, rfl, rfl, rfl, hnone, ?_⟩
  · exact getSignupToken_valid_eval cfg db a token now hre hfind
      (by rw [hexp]; simp [dateLt]; omega)
  · exact getSignupToken_notfound_eval cfg2 _ token now2 hre hnone

/-- Witness for C7 at a concrete pending account. -/
theorem verify_then_reuse_not_applicable_witness :
    getSignupToken cfgNonRest [acctBob (some tok22) (some 2000)] tok22 1000 =
      ⟨[⟨"bob", "bob@example.com", "x", "user", true, some 1000, none, none⟩],
       [Effect.find "signupToken" tok22,
        Effect.update ⟨"bob", "bob@example.com", "x", "user", true, some 1000, none, none⟩,
        Effect.emitSignup ⟨"bob", "bob@example.com", "x", "user", true, some 1000, none, none⟩],
       some (Response.render none "mail-verification-success" "Sign up success"
              none none none)⟩ ∧
    (verifiedAccount (acctBob (some tok22) (some 2000)) 1000).emailVerified = true ∧
    (verifiedAccount (acctBob (some tok22) (some 2000)) 1000).emailVerificationTimestamp
      = some 1000 ∧
    (verifiedAccount (acctBob (some tok22) (some 2000)) 1000).signupToken = none ∧
    (verifiedAccount (acctBob (some tok22) (some 2000)) 1000).signupTokenExpires = none ∧
    dbFind [⟨"bob", "bob@example.com", "x", "user", true, some 1000, none, none⟩]
      "signupToken" tok22 = none ∧
    getSignupToken cfgNonRest
      [⟨"bob", "bob@example.com", "x", "user", true, some 1000, none, none⟩] tok22 3000 =
      ⟨[⟨"bob", "bob@example.com", "x", "user", true, some 1000, none, none⟩],
       [Effect.find "signupToken" tok22], some Response.next⟩ :=
  verify_then_reuse_not_applicable cfgNonRest cfgNonRest
    [acctBob (some tok22) (some 2000)] (acctBob (some tok22) (some 2000))
    tok22 1000 3000 2000
    (by decide) (by decide) rfl (by decide) (by decide)

/-! ## Claim C10 -/

/-- C10: for a successful (non-expired) Verification, the persisted state
and the emitted effects, including the signup event, are identical whether
`config.signup.handleResponse` is true or false; the flag only decides
whether anything is sent back to the caller. -/
theorem handleResponse_only_affects_response
    (cfg : Config) (db : List Account) (a : Account) (token : String) (now exp : Nat)
    (hre : reTest token = true)
    (hfind : dbFind db "signupToken" token = some a)
    (hexp : a.signupTokenExpires = some exp)
    (hfut : now < exp) :
    (getSignupToken { cfg with handleResponse := true } db token now).db =
      (getSignupToken { cfg with handleResponse := false } db token now).db ∧
    (getSignupToken { cfg with handleResponse := true } db token now).effects =
      (getSignupToken { cfg with handleResponse := false } db token now).effects ∧
    Effect.emitSignup (verifiedAccount a now) ∈
      (getSignupToken { cfg with handleResponse := false } db token now).effects ∧
    (getSignupToken { cfg with handleResponse := false } db token now).response = none ∧
    (getSignupToken { cfg with handleResponse := true } db token now).response =
      some (if cfg.rest then Response.send 204
            else Response.render none (verifiedView cfg) "Sign up success"
                   none none none) := by
  have hnexp : dateLt a.signupTokenExpires now = false := by
    rw [hexp]; simp [dateLt]; omega
  have hT := getSignupToken_valid_eval { cfg with handleResponse := true }
    db a token now hre hfind hnexp
  have hF := getSignupToken_valid_eval { cfg with handleResponse := false }
    db a token now hre hfind hnexp
  rw [hT, hF]
  refine ⟨rfl, rfl, by simp, by simp [verifiedResponse],
    by simp [verifiedResponse, verifiedView]⟩

/-- Witness for C10 at a concrete pending account. -/
theorem handleResponse_only_affects_response_witness :
    (getSignupToken { cfgNonRest with handleResponse := true }
        [acctBob (some tok22) (some 2000)] tok22 1000).db =
      (getSignupToken { cfgNonRest with handleResponse := false }
        [acctBob (some tok22) (some 2000)] tok22 1000).db ∧
    (getSignupToken { cfgNonRest with handleResponse := true }
        [acctBob (some tok22) (some 2000)] tok22 1000).effects =
      (getSignupToken { cfgNonRest with handleResponse := false }
        [acctBob (some tok22) (some 2000)] tok22 1000).effects ∧
    Effect.emitSignup (verifiedAccount (acctBob (some tok22) (some 2000)) 1000) ∈
      (getSignupToken { cfgNonRest with handleResponse := false }
        [acctBob (some tok22) (some 2000)] tok22 1000).effects ∧
    (getSignupToken { cfgNonRest with handleResponse := false }
        [acctBob (some tok22) (some 2000)] tok22 1000).response = none ∧
    (getSignupToken { cfgNonRest with handleResponse := true }
        [acctBob (some tok22) (some 2000)] tok22 1000).response =
      some (if cfgNonRest.rest then Response.send 204
            else Response.render none (verifiedView cfgNonRest) "Sign up success"
                   none none none) :=
  handleResponse_only_affects_response cfgNonRest [acctBob (some tok22) (some 2000)]
    (acctBob (some tok22) (some 2000)) tok22 1000 2000
    (by decide) (by decide) rfl (by decide)

/-- With a token the regex rejects, `getSignupToken` falls through with no
lookup at all. -/
theorem getSignupToken_malformed_eval
    (cfg : Config) (db : List Account) (token : String) (now : Nat)
    (hre : reTest token = false) :
    getSignupToken cfg db token now = ⟨db, [], some Response.next⟩ := by
  unfold getSignupToken
  rw [if_pos hre]

/-- The unanchored search succeeds exactly when some decomposition puts an
accepted shape at the head of the suffix. -/
theorem reTestList_iff (cs : List Char) :
    reTestList cs = true ↔
      ∃ pre suf, cs = pre ++ suf ∧ tokenShapeAt suf = true := by
  induction cs with
  | nil =>
      constructor
      · intro h; exact absurd h (by decide)
      · rintro ⟨pre, suf, h, hs⟩
        rcases List.append_eq_nil.mp h.symm with ⟨rfl, rfl⟩
        exact absurd hs (by decide)
  | cons c cs ih =>
      rw [reTestList, Bool.or_eq_true, ih]
      constructor
      · rintro (h | ⟨pre, suf, rfl, hs⟩)
        · exact ⟨[], c :: cs, rfl, h⟩
        · exact ⟨c :: pre, suf, rfl, hs⟩
      · rintro ⟨pre, suf, heq, hs⟩
        cases pre with
        | nil =>
            left
            rw [List.nil_append] at heq
            rw [heq]
            exact hs
        | cons d pre2 =>
            right
            rw [List.cons_append] at heq
            injection heq with h1 h2
            exact ⟨pre2, suf, h2, hs⟩

/-! ## Claim C2 -/

/-- C2 (code bug): a Resend for a verified account returns the distinct
already-verified error only under REST; with REST off the guard does not
return, so the handler issues a fresh token, persists it on the verified
account and renders the resend-success view, contradicting the claimed
"always errors, never mutates". -/
theorem resend_verified_nonrest_mutates :
    postSignupResend cfgNonRest
        [⟨"bob", "bob@example.com", "x", "user", true, some 10, none, none⟩]
        "bob@example.com" tok22 2000 =
      ⟨[⟨"bob", "bob@example.com", "x", "user", true, some 10, some tok22, some 3000⟩],
       [Effect.find "email" "bob@example.com",
        Effect.update
          ⟨"bob", "bob@example.com", "x", "user", true, some 10, some tok22, some 3000⟩,
        Effect.mailResend "bob" "bob@example.com" tok22],
       some (Response.render none "post-signup" "Sign up - Email sent" none none none)⟩ ∧
    postSignupResend cfgRest
        [⟨"bob", "bob@example.com", "x", "user", true, some 10, none, none⟩]
        "bob@example.com" tok22 2000 =
      ⟨[⟨"bob", "bob@example.com", "x", "user", true, some 10, none, none⟩],
       [Effect.find "email" "bob@example.com"],
       some (Response.json 403 "signup.11")⟩ := by
  constructor <;> rfl

/-! ## Claim C9 -/

/-- C9 (code bug): when the email lookup finds no account, the Resend
handler terminates early only under REST; with REST off the guard does not
return and the next line reads `emailVerified` off the absent result,
throwing (modelled as the crash response). -/
theorem resend_missing_account_dereference :
    postSignupResend cfgNonRest [] "bob@example.com" tok22 0 =
      ⟨[], [Effect.find "email" "bob@example.com"], some Response.crash⟩ ∧
    postSignupResend cfgRest [] "bob@example.com" tok22 0 =
      ⟨[], [Effect.find "email" "bob@example.com"],
       some (Response.json 403 "signup.10")⟩ := by
  constructor <;> rfl

/-! ## Claim C4 -/

/-- C4 (counterexample): this string is not entirely of either accepted
token shape, yet the handler still performs the repository lookup, because
the regex `test` is an unanchored substring search. -/
theorem token_gate_counterexample :
    specExactTokenShape "zz0123456789abcdef012345zz" = false ∧
    (getSignupToken cfgRest [] "zz0123456789abcdef012345zz" 0).effects =
      [Effect.find "signupToken" "zz0123456789abcdef012345zz"] := by
  constructor <;> rfl

/-- C4 (amended): the Verification workflow performs a repository lookup
iff the token string contains, at some position, a 22-character
hexadecimal run or the dashed 8-4-4-4-12 hexadecimal shape
(case-insensitive, unanchored); a string containing neither is rejected
before any lookup with the not-applicable outcome. -/
theorem token_gate_unanchored
    (cfg : Config) (db : List Account) (token : String) (now : Nat) :
    (Effect.find "signupToken" token ∈ (getSignupToken cfg db token now).effects ↔
      ∃ pre suf, token.data = pre ++ suf ∧ tokenShapeAt suf = true) ∧
    (reTest token = false →
      getSignupToken cfg db token now = ⟨db, [], some Response.next⟩) := by
  have hmem : reTest token = true →
      Effect.find "signupToken" token ∈ (getSignupToken cfg db token now).effects := by
    intro hre
    have hcond : ¬ (reTest token = false) := by simp [hre]
    unfold getSignupToken
    rw [if_neg hcond]
    cases hdb : dbFind db "signupToken" token with
    | none => simp
    | some a => cases hdl : dateLt a.signupTokenExpires now <;> simp [hdl]
  refine ⟨?_, fun hre => getSignupToken_malformed_eval cfg db token now hre⟩
  rw [← reTestList_iff]
  constructor
  · intro hm
    cases h : reTest token with
    | true => exact h
    | false =>
        rw [getSignupToken_malformed_eval cfg db token now h] at hm
        simp at hm
  · exact hmem

/-- Witness for C4 (amended) at a concrete shapeless token. -/
theorem token_gate_unanchored_witness :
    getSignupToken cfgRest [] "zzz" 0 = ⟨[], [], some Response.next⟩ :=
  (token_gate_unanchored cfgRest [] "zzz" 0).2 (by decide)

/-! ## Claim C5 -/

/-- C5: `validateSignup` equals the spec's ordered first-failure check
list; any validation failure means the workflow touches neither the
repository nor the database; in particular the name Bob fails with the
not-lowercase code signup.03 before any lookup. -/
theorem validate_order_first_failure :
    (∀ n e p t, validateSignup n e p t = specFirstFailure n e p t) ∧
    (∀ (cfg : Config) (db : List Account) (n e p t tok : String) (now : Nat) (c : String),
        validateSignup n e p t = some c →
        (postSignup cfg db n e p t tok now).effects = [] ∧
        (postSignup cfg db n e p t tok now).db = db) ∧
    (∀ e p t, e ≠ "" → p ≠ "" → validateSignup "Bob" e p t = some "signup.03") := by
  refine ⟨?_, ?_, ?_⟩
  · intro n e p t
    unfold validateSignup specFirstFailure specSignupChecks
    by_cases h1 : n = "" ∨ e = "" ∨ p = "" <;>
    by_cases h2 : n ≠ encodeURIComponent n <;>
    by_cases h3 : n ≠ jsToLower n <;>
    by_cases h4 : firstCharLowerAlpha n = false <;>
    by_cases h5 : emailTest e = false <;>
    by_cases h6 : t = "" <;>
    simp [h1, h2, h3, h4, h5, h6, List.find?]
  · intro cfg db n e p t tok now c h
    rw [postSignup_error_eval cfg db n e p t tok now c h]
    exact ⟨rfl, rfl⟩
  · intro e p t he hp
    have h1 : ¬ ("Bob" = "" ∨ e = "" ∨ p = "") := by
      rintro (h | h | h)
      · exact absurd h (by decide)
      · exact he h
      · exact hp h
    unfold validateSignup
    rw [if_neg h1, if_neg (by decide), if_pos (by decide)]

/-- Witness for C5: the Bob example itself. -/
theorem validate_order_first_failure_witness :
    validateSignup "Bob" "bob@example.com" "x" "user" = some "signup.03" :=
  validate_order_first_failure.2.2 "bob@example.com" "x" "user"
    (by decide) (by decide)

/-! ## Claim C6 -/

/-- C6: for valid input whose email already belongs to a stored account
while the name is unused, Signup leaves the database unchanged, notifies
the owning account's name and email of the duplicate registration, and
returns the very response a fresh successful signup returns. -/
theorem duplicate_email_indistinguishable
    (cfg : Config) (db db2 : List Account) (u : Account)
    (n e p t tok tok2 : String) (now now2 : Nat)
    (hval : validateSignup n e p t = none)
    (hname : dbFind db "name" n = none)
    (hdup : dbFind db "email" e = some u)
    (hname2 : dbFind db2 "name" n = none)
    (hfresh : dbFind db2 "email" e = none) :
    postSignup cfg db n e p t tok now =
      ⟨db, [Effect.find "name" n, Effect.find "email" e,
            Effect.mailTaken u.name u.email],
       some (if cfg.rest then Response.send 204
             else Response.render none (signedUpView cfg) "Sign up - Email sent"
                    none none none)⟩ ∧
    (postSignup cfg db n e p t tok now).response =
      (postSignup cfg db2 n e p t tok2 now2).response := by
  have h1 := postSignup_dup_email_eval cfg db u n e p t tok now hval hname hdup
  have h2 := postSignup_fresh_eval cfg db2 n e p t tok2 now2 hval hname2 hfresh
  rw [h1, h2]
  exact ⟨rfl, rfl⟩

/-- Witness for C6: alice signs up with bob's email. -/
theorem duplicate_email_indistinguishable_witness :
    postSignup cfgNonRest [acctBob none none] "alice" "bob@example.com" "x" "user"
        tok22 0 =
      ⟨[acctBob none none],
       [Effect.find "name" "alice", Effect.find "email" "bob@example.com",
        Effect.mailTaken "bob" "bob@example.com"],
       some (Response.render none "post-signup" "Sign up - Email sent" none none none)⟩ ∧
    (postSignup cfgNonRest [acctBob none none] "alice" "bob@example.com" "x" "user"
        tok22 0).response =
      (postSignup cfgNonRest [] "alice" "bob@example.com" "x" "user"
        tok22b 5).response :=
  duplicate_email_indistinguishable cfgNonRest [acctBob none none] []
    (acctBob none none) "alice" "bob@example.com" "x" "user" tok22 tok22b 0 5
    (by decide) (by decide) (by decide) rfl rfl

/-! ## Claim C8 -/

/-- C8: for an unverified stored account, two sequential Resend calls with
distinct fresh draws overwrite the stored token in turn; afterwards the
second token's lookup finds the account while the first token falls
through as not applicable, its stored copy having been overwritten. -/
theorem resend_twice_only_second_valid
    (cfg cfg2 : Config) (db : List Account) (a : Account)
    (email t1 t2 : String) (now1 now2 now3 : Nat)
    (hmail : emailTest email = true)
    (hfind : dbFind db "email" email = some a)
    (hver : a.emailVerified = false)
    (hemail : ∀ b ∈ db, b.email = email → b = a)
    (hne : t1 ≠ t2)
    (hf1 : ∀ b ∈ db, b.name ≠ a.name → b.signupToken ≠ some t1)
    (hf2 : ∀ b ∈ db, b.name ≠ a.name → b.signupToken ≠ some t2)
    (hre : reTest t1 = true) :
    (postSignupResend cfg db email t1 now1).db =
      dbUpdate db (resentAccount a t1 (now1 + cfg.tokenExpiration)) ∧
    (postSignupResend cfg (dbUpdate db (resentAccount a t1 (now1 + cfg.tokenExpiration)))
        email t2 now2).db =
      dbUpdate (dbUpdate db (resentAccount a t1 (now1 + cfg.tokenExpiration)))
        (resentAccount a t2 (now2 + cfg.tokenExpiration)) ∧
    dbFind (dbUpdate (dbUpdate db (resentAccount a t1 (now1 + cfg.tokenExpiration)))
        (resentAccount a t2 (now2 + cfg.tokenExpiration))) "signupToken" t2 =
      some (resentAccount a t2 (now2 + cfg.tokenExpiration)) ∧
    dbFind (dbUpdate (dbUpdate db (resentAccount a t1 (now1 + cfg.tokenExpiration)))
        (resentAccount a t2 (now2 + cfg.tokenExpiration))) "signupToken" t1 = none ∧
    getSignupToken cfg2
        (dbUpdate (dbUpdate db (resentAccount a t1 (now1 + cfg.tokenExpiration)))
          (resentAccount a t2 (now2 + cfg.tokenExpiration))) t1 now3 =
      ⟨dbUpdate (dbUpdate db (resentAccount a t1 (now1 + cfg.tokenExpiration)))
          (resentAccount a t2 (now2 + cfg.tokenExpiration)),
       [Effect.find "signupToken" t1], some Response.next⟩ := by
  have e1 := postSignupResend_issue_eval cfg db a email t1 now1 hmail hfind
    (by rw [hver]; rfl)
  have hfind1 : dbFind (dbUpdate db (resentAccount a t1 (now1 + cfg.tokenExpiration)))
      "email" email = some (resentAccount a t1 (now1 + cfg.tokenExpiration)) := by
    apply dbFind_update_email_self
    · exact ⟨a, dbFind_email_mem hfind, rfl⟩
    · intro b hb hbn hbe
      apply hbn
      rw [hemail b hb hbe]
      rfl
    · show a.email = email
      exact dbFind_email_eq hfind
  have e2 := postSignupResend_issue_eval cfg
    (dbUpdate db (resentAccount a t1 (now1 + cfg.tokenExpiration)))
    (resentAccount a t1 (now1 + cfg.tokenExpiration)) email t2 now2 hmail hfind1
    (by rw [show (resentAccount a t1 (now1 + cfg.tokenExpiration)).emailVerified
              = a.emailVerified from rfl, hver]; rfl)
  have hmemmap : ∀ b ∈ dbUpdate db (resentAccount a t1 (now1 + cfg.tokenExpiration)),
      b = resentAccount a t1 (now1 + cfg.tokenExpiration) ∨
        (b ∈ db ∧ b.name ≠ a.name) := by
    intro b hb
    rcases List.mem_map.mp hb with ⟨c, hc, rfl⟩
    by_cases hcn : c.name = (resentAccount a t1 (now1 + cfg.tokenExpiration)).name
    · left; rw [if_pos hcn]
    · right; rw [if_neg hcn]; exact ⟨hc, hcn⟩
  have h2some : dbFind (dbUpdate (dbUpdate db (resentAccount a t1 (now1 + cfg.tokenExpiration)))
      (resentAccount a t2 (now2 + cfg.tokenExpiration))) "signupToken" t2 =
      some (resentAccount a t2 (now2 + cfg.tokenExpiration)) := by
    apply dbFind_update_token_self
    · refine ⟨resentAccount a t1 (now1 + cfg.tokenExpiration),
        List.mem_map.mpr ⟨a, dbFind_email_mem hfind, ?_⟩, rfl⟩
      simp [resentAccount]
    · intro b hb hbn
      rcases hmemmap b hb with rfl | ⟨hbdb, hbname⟩
      · exact absurd rfl hbn
      · exact hf2 b hbdb hbname
    · rfl
  have h1none : dbFind (dbUpdate (dbUpdate db (resentAccount a t1 (now1 + cfg.tokenExpiration)))
      (resentAccount a t2 (now2 + cfg.tokenExpiration))) "signupToken" t1 = none := by
    apply dbFind_update_token_none
    · show ¬ (some t2 = some t1)
      simp only [Option.some.injEq]
      exact Ne.symm hne
    · intro b hb hbt
      rcases hmemmap b hb with rfl | ⟨hbdb, hbname⟩
      · rfl
      · exact absurd hbt (hf1 b hbdb hbname)
  refine ⟨by rw [e1], by rw [e2]; rfl, h2some, h1none, ?_⟩
  exact getSignupToken_notfound_eval cfg2 _ t1 now3 hre h1none

/-- Witness for C8 at a concrete unverified account and two concrete
tokens. -/
theorem resend_twice_only_second_valid_witness :
    (postSignupResend cfgNonRest [acctBob none none] "bob@example.com" tok22 0).db =
      [⟨"bob", "bob@example.com", "x", "user", false, none, some tok22, some 1000⟩] ∧
    (postSignupResend cfgNonRest
        [⟨"bob", "bob@example.com", "x", "user", false, none, some tok22, some 1000⟩]
        "bob@example.com" tok22b 10).db =
      [⟨"bob", "bob@example.com", "x", "user", false, none, some tok22b, some 1010⟩] ∧
    dbFind [⟨"bob", "bob@example.com", "x", "user", false, none, some tok22b, some 1010⟩]
        "signupToken" tok22b =
      some ⟨"bob", "bob@example.com", "x", "user", false, none, some tok22b, some 1010⟩ ∧
    dbFind [⟨"bob", "bob@example.com", "x", "user", false, none, some tok22b, some 1010⟩]
        "signupToken" tok22 = none ∧
    getSignupToken cfgNonRest
        [⟨"bob", "bob@example.com", "x", "user", false, none, some tok22b, some 1010⟩]
        tok22 20 =
      ⟨[⟨"bob", "bob@example.com", "x", "user", false, none, some tok22b, some 1010⟩],
       [Effect.find "signupToken" tok22], some Response.next⟩ :=
  resend_twice_only_second_valid cfgNonRest cfgNonRest [acctBob none none]
    (acctBob none none) "bob@example.com" tok22 tok22b 0 10 20
    (by decide) (by decide) rfl (by decide) (by decide)
    (by decide) (by decide) (by decide)

end LockitSignup
